import Mathlib

/-!
# lazy-cache: a verification development

Shallow embedding of the moderntv/lazy-cache caching engine and proofs of
its specified properties.  The Go sources embedded here are:

* `internal/utils.RandomizeDuration` — duration jitter;
* `cachedEntry` (`set`, `get`) — the per-key cell;
* `Timeouts.check`, `Params.check` — construction-time validation;
* `Cache` — `Get`, `Invalidate`, `addLoadedEntry`, one iteration of the
  TTL-watcher loop and of the reload-watcher loop, `setEntryWatchers`.

Modelling conventions.  Durations are `Int` nanoseconds (Go
`time.Duration`), timestamps are `Int` epoch milliseconds.  The process
random source (`math/rand`) is an explicit stream `ℕ → ℚ × Bool` with a
cursor threaded through every draw: the rational is `rand.Float64()`
(exactly represented instead of rounded to a float) and the boolean is
`rand.Intn(2) == 0`.  Goroutine bodies are embedded as functions from one
cache state to the next; the two deathrow deadline queues are modelled
from their contract (a finite key → fire-at-time map, a push replacing any
previous deadline for its key).
-/

namespace LazyCache

/-- Go error values as the cache observes them.  `notFound` stands for the
exported `ErrNotFound` sentinel (its one-line declaration is not among the
provided sources; its semantics is fixed by the uses of
`errors.Is(err, ErrNotFound)` and the tests); `wrap` is `fmt.Errorf`
with `%w`, which extends a cause chain; `generic` is any other error. -/
inductive GoError where
  | notFound : GoError
  | generic (msg : String) : GoError
  | wrap (msg : String) (cause : GoError) : GoError
deriving DecidableEq, Repr

/-- `errors.Is(err, ErrNotFound)`: whether the cause chain of the error
reaches the `ErrNotFound` sentinel. -/
def GoError.isNotFound : GoError → Bool
  | .notFound => true
  | .generic _ => false
  | .wrap _ cause => cause.isNotFound

/-- `err != nil && errors.Is(err, ErrNotFound)` for a nilable error. -/
def errIsNotFound : Option GoError → Bool
  | none => false
  | some e => e.isNotFound

/-- `err != nil && !errors.Is(err, ErrNotFound)` for a nilable error. -/
def errIsGeneric : Option GoError → Bool
  | none => false
  | some e => !e.isNotFound

/-- The process random source: draw `i` yields the value of
`rand.Float64()` (in `[0,1)`) and `rand.Intn(2) == 0`. -/
abbrev RandSrc := ℕ → ℚ × Bool

/-- A random source whose float draws are in `[0, 1)`, as `rand.Float64`
guarantees. -/
def RandSrcOk (src : RandSrc) : Prop :=
  ∀ i : ℕ, 0 ≤ (src i).1 ∧ (src i).1 < 1

/-- Go's conversion from a real number to an integer type: truncation
toward zero. -/
def truncQ (q : ℚ) : Int :=
  if 0 ≤ q then ⌊q⌋ else -⌊-q⌋

/-- `utils.RandomizeDuration(d, randomizer)` from `internal/utils`.
When `randomizer` is `0` the duration is returned unchanged and no
randomness is consumed, otherwise `add = Duration(float64(d) *
rand.Float64() * randomizer)` is computed, negated when `rand.Intn(2) ==
0`, and `d + add` is returned.  Takes the stream and the cursor, returns
the new cursor along with the result. -/
def RandomizeDuration (d : Int) (randomizer : ℚ) (src : RandSrc) (i : ℕ) :
    Int × ℕ :=
  if randomizer = 0 then
    (d, i)
  else
    let u := (src i).1
    let add := truncQ ((d : ℚ) * u * randomizer)
    let add := if (src i).2 then -add else add
    (d + add, i + 1)

/-- `time.Duration.Milliseconds()`: nanoseconds divided by 10^6, Go
integer division (truncation toward zero). -/
def durMillis (d : Int) : Int := Int.tdiv d 1000000

/-- The `Timeouts` record.  Duration fields are `Int` nanoseconds; the
`Randomizer` factor is exact (`ℚ`) instead of a float. -/
structure Timeouts where
  TTL : Int
  NotFoundTTL : Int
  ErrorTTL : Int
  ReloadInterval : Int
  Randomizer : ℚ
  MemsizeUpdate : Int
deriving DecidableEq, Repr

/-- `Timeouts.check`: the construction-time validation of the timeouts
record.  Returns the error message, or `none` on success. -/
def Timeouts.check (t : Timeouts) : Option String :=
  if t.TTL = 0 then
    some "TTL cannot be 0"
  else if t.ReloadInterval > t.TTL then
    some "ReloadInterval must be less than or equal to TTL"
  else if t.Randomizer < 0 then
    some "Randomizer cannot be negative"
  else if t.Randomizer > 1 then
    some "Randomizer cannot be greater than 1"
  else
    none

/-- The validated part of the `Params` record.  The opaque handles
(context, loader callables) are represented by their nil-ness, which is
all `Params.check` inspects. -/
structure ParamsV where
  contextSet : Bool
  name : String
  loadOneSet : Bool
  timeouts : Timeouts
deriving DecidableEq, Repr

/-- `Params.check`: nil-checks on required options, then the timeouts
validation. -/
def ParamsV.check (p : ParamsV) : Option String :=
  if !p.contextSet then
    some "context must be set"
  else if p.name = "" then
    some "name must be set"
  else if !p.loadOneSet then
    some "LoadOneFunc must be provided"
  else
    p.timeouts.check

/-- `cachedEntry[T]`: value pointer (absent = known not-found),
next-reload deadline in epoch millis, accessed-since-last-load flag.
The per-entry mutex is part of the concurrency model, not of the data. -/
structure CachedEntry (T : Type) where
  nextReload : Int := 0
  accessed : Bool := false
  value : Option T := none
deriving DecidableEq, Repr

/-- `cachedEntry.set(value, err, nowMillis, timeouts, init)`.  Faithful to
the source's control flow: non-NotFound errors keep the stored value and
yield `jitter(ErrorTTL)` on first load, else the `-1` sentinel; NotFound
clears the value and yields `jitter(NotFoundTTL)`; success stores the
value and yields `jitter(TTL)`.  Unconditionally afterwards: `accessed`
is cleared and `nextReload := nowMillis +
jitter(ReloadInterval).Milliseconds()`.  Returns
`(ttl, updated entry, new random cursor)`. -/
def CachedEntry.set {T : Type} (e : CachedEntry T) (value : Option T)
    (err : Option GoError) (nowMillis : Int) (timeouts : Timeouts)
    (init : Bool) (src : RandSrc) (i : ℕ) : Int × CachedEntry T × ℕ :=
  let step :=
    match err with
    | some er =>
      if !er.isNotFound then
        if init then
          let r := RandomizeDuration timeouts.ErrorTTL timeouts.Randomizer src i
          (r.1, e, r.2)
        else
          (-1, e, i)
      else
        let r := RandomizeDuration timeouts.NotFoundTTL timeouts.Randomizer src i
        (r.1, { e with value := none }, r.2)
    | none =>
      let r := RandomizeDuration timeouts.TTL timeouts.Randomizer src i
      (r.1, { e with value := value }, r.2)
  let rl := RandomizeDuration timeouts.ReloadInterval timeouts.Randomizer src step.2.2
  (step.1,
   { step.2.1 with accessed := false, nextReload := nowMillis + durMillis rl.1 },
   rl.2)

/-- `cachedEntry.get()`: marks the entry accessed and returns the value
snapshot.  Returns the snapshot and the updated entry. -/
def CachedEntry.get {T : Type} (e : CachedEntry T) : Option T × CachedEntry T :=
  (e.value, { e with accessed := true })

/-- The `AutomaticReload` mode enumeration. -/
inductive AutomaticReload where
  | disabled : AutomaticReload
  | accessedEntries : AutomaticReload
  | allEntries : AutomaticReload
deriving DecidableEq, Repr

/-- A preloaded item from the preload channel. -/
structure LoadedEntry (K T : Type) where
  ID : K
  Value : Option T
  Err : Option GoError

section AList

variable {K V : Type}

/-- A finite key → value map as an association list with at most one
binding per key.  Used for the Go `map` index and for the two deadline
queues. -/
def alistLookup [DecidableEq K] (l : List (K × V)) (k : K) : Option V :=
  (l.find? (fun p => p.1 = k)).map Prod.snd

/-- Store a binding, superseding any previous binding of the same key. -/
def alistInsert [DecidableEq K] (l : List (K × V)) (k : K) (v : V) :
    List (K × V) :=
  (k, v) :: l.filter (fun p => ¬ p.1 = k)

/-- Delete any binding of the key. -/
def alistRemove [DecidableEq K] (l : List (K × V)) (k : K) : List (K × V) :=
  l.filter (fun p => ¬ p.1 = k)

theorem find?_and_ne [DecidableEq K] (l : List (K × V)) (k k' : K)
    (h : ¬ k' = k) :
    l.find? (fun a => !decide (a.1 = k) && decide (a.1 = k'))
      = l.find? (fun p => p.1 = k') := by
  induction l with
  | nil => rfl
  | cons p rest ih =>
    by_cases hp' : p.1 = k'
    · have hp : ¬ p.1 = k := by rw [hp']; exact h
      simp [List.find?_cons, hp, hp', h, ih]
    · simp [List.find?_cons, hp', ih]

theorem find?_and_self_ne [DecidableEq K] (l : List (K × V)) (k : K) :
    l.find? (fun a => !decide (a.1 = k) && decide (a.1 = k)) = none := by
  induction l with
  | nil => rfl
  | cons p rest ih =>
    by_cases hp : p.1 = k <;> simp [List.find?_cons, hp, ih]

theorem alistLookup_insert_self [DecidableEq K] (l : List (K × V)) (k : K)
    (v : V) : alistLookup (alistInsert l k v) k = some v := by
  simp [alistLookup, alistInsert]

theorem alistLookup_insert_ne [DecidableEq K] (l : List (K × V)) (k k' : K)
    (v : V) (h : ¬ k' = k) :
    alistLookup (alistInsert l k v) k' = alistLookup l k' := by
  have hk : ¬ k = k' := fun hh => h hh.symm
  simp [alistLookup, alistInsert, hk, find?_and_ne l k k' h]

theorem alistLookup_remove_self [DecidableEq K] (l : List (K × V)) (k : K) :
    alistLookup (alistRemove l k) k = none := by
  simp [alistLookup, alistRemove, find?_and_self_ne l k]

theorem alistLookup_remove_ne [DecidableEq K] (l : List (K × V)) (k k' : K)
    (h : ¬ k' = k) :
    alistLookup (alistRemove l k) k' = alistLookup l k' := by
  simp [alistLookup, alistRemove, find?_and_ne l k k' h]

end AList

section CacheModel

variable {K T : Type}

/-- Lookup in the key → entry index (Go map read). -/
def dataLookup [DecidableEq K] (l : List (K × CachedEntry T)) (k : K) :
    Option (CachedEntry T) :=
  alistLookup l k

/-- Go map store: bind the key, superseding any previous binding. -/
def dataInsert [DecidableEq K] (l : List (K × CachedEntry T)) (k : K)
    (v : CachedEntry T) : List (K × CachedEntry T) :=
  alistInsert l k v

/-- Go map delete. -/
def dataRemove [DecidableEq K] (l : List (K × CachedEntry T)) (k : K) :
    List (K × CachedEntry T) :=
  alistRemove l k

/-- Modelled from the spec: the state of a `deathrow.Prison` deadline
queue (external dependency, not among the sources).  Per the contract in
the spec, it is a finite map from key to fire-at instant (here epoch
millis): at most one live entry per key, `Push` superseding any previous
deadline. -/
def WatcherQ (K : Type) : Type := List (K × Int)

/-- Modelled from the spec: `Prison.Push(key, d)` arms (or re-arms) `key`
to fire at `now + d` (`d` in nanoseconds, fire-at in millis). -/
def wPush [DecidableEq K] (w : WatcherQ K) (k : K) (fireAt : Int) :
    WatcherQ K :=
  alistInsert w k fireAt

/-- Modelled from the spec: `Prison.Drop(key)` removes any pending entry
for `key`. -/
def wDrop [DecidableEq K] (w : WatcherQ K) (k : K) : WatcherQ K :=
  alistRemove w k

/-- The fire-at deadline currently armed for `k`, if any. -/
def wLookup [DecidableEq K] (w : WatcherQ K) (k : K) : Option Int :=
  alistLookup w k

/-- The cache state: configuration, the key → entry index, both deadline
queues and the metric counters.  Counters are modelled as plain integers
(the Go code guards each bump behind `c.metrics != nil`, which only
controls emission). -/
structure Cache (K T : Type) where
  timeouts : Timeouts
  automaticReload : AutomaticReload
  data : List (K × CachedEntry T)
  ttlWatcher : WatcherQ K
  reloadWatcher : WatcherQ K
  itemsCount : Int := 0
  errorLoads : Int := 0
  lazyLoads : Int := 0
  automaticLoads : Int := 0
  readsCount : Int := 0

/-- `Cache.setEntryWatchers(entryID, ttl, entry, nowMillis)`: push the TTL
watcher when `ttl ≥ 0`; unless automatic reload is disabled, push the
reload watcher with duration `(entry.nextReload - nowMillis) *
time.Millisecond`. -/
def Cache.setEntryWatchers [DecidableEq K] (c : Cache K T) (entryID : K)
    (ttl : Int) (entry : CachedEntry T) (nowMillis : Int) : Cache K T :=
  let c :=
    if 0 ≤ ttl then
      { c with ttlWatcher := wPush c.ttlWatcher entryID (nowMillis + durMillis ttl) }
    else c
  if c.automaticReload = .disabled then
    c
  else
    let fireAt := nowMillis + durMillis ((entry.nextReload - nowMillis) * 1000000)
    { c with reloadWatcher := wPush c.reloadWatcher entryID fireAt }

/-- The single-key loader: returns the loaded pointer and the error. -/
abbrev Loader (K T : Type) := K → Option T × Option GoError

/-- `Cache.Get(ID)`.  `nowMillis` is the `time.Now().UnixMilli()` read,
`loader` the user's `LoadOneFunc`.  Returns the value handed to the
caller, the new cache state and the new random cursor.  The stale branch
re-tests freshness after taking the entry lock exactly as the source
does; in this sequential embedding nothing can change between the two
reads, so the re-test branch is dead. -/
def Cache.Get [DecidableEq K] (c : Cache K T) (id : K) (nowMillis : Int)
    (loader : Loader K T) (src : RandSrc) (i : ℕ) :
    Option T × Cache K T × ℕ :=
  let c : Cache K T := { c with readsCount := c.readsCount + 1 }
  match dataLookup c.data id with
  | some entry =>
    if nowMillis < entry.nextReload then
      let g := entry.get
      (g.1, { c with data := dataInsert c.data id g.2 }, i)
    else if nowMillis < entry.nextReload then
      let g := entry.get
      (g.1, { c with data := dataInsert c.data id g.2 }, i)
    else
      let lv := loader id
      let r := entry.set lv.1 lv.2 nowMillis c.timeouts false src i
      let c := { c with data := dataInsert c.data id r.2.1 }
      let c := c.setEntryWatchers id r.1 r.2.1 nowMillis
      let c := { c with lazyLoads := c.lazyLoads + 1,
                        errorLoads := c.errorLoads +
                          (if errIsGeneric lv.2 then 1 else 0) }
      let g := r.2.1.get
      (g.1, { c with data := dataInsert c.data id g.2 }, r.2.2)
  | none =>
    let entry : CachedEntry T := {}
    let c := { c with data := dataInsert c.data id entry }
    let lv := loader id
    let r := entry.set lv.1 lv.2 nowMillis c.timeouts true src i
    let c := { c with data := dataInsert c.data id r.2.1 }
    let c := c.setEntryWatchers id r.1 r.2.1 nowMillis
    let c := { c with lazyLoads := c.lazyLoads + 1,
                      errorLoads := c.errorLoads +
                        (if errIsGeneric lv.2 then 1 else 0) }
    let g := r.2.1.get
    (g.1, { c with data := dataInsert c.data id g.2 }, r.2.2)

/-- `Cache.Invalidate(ID)`: no-op for an unknown key; otherwise store
`nextReload = 0` on the entry and, when automatic reload is enabled,
`reloadWatcher.Push(ID, 0)`.  `nowMillis` is the instant of the push. -/
def Cache.Invalidate [DecidableEq K] (c : Cache K T) (id : K)
    (nowMillis : Int) : Cache K T :=
  match dataLookup c.data id with
  | none => c
  | some entry =>
    let c := { c with data := dataInsert c.data id { entry with nextReload := 0 } }
    if c.automaticReload = .disabled then
      c
    else
      { c with reloadWatcher := wPush c.reloadWatcher id (nowMillis + durMillis 0) }

/-- `Cache.addLoadedEntry(loadedEntry, nowMillis)` (preload path): build a
fresh entry through `set(..., init=true)`; when the key already exists
and the item carries a non-NotFound error, discard the entry and bump the
error-loads counter; otherwise install it, arm the watchers and bump the
items-count gauge. -/
def Cache.addLoadedEntry [DecidableEq K] (c : Cache K T)
    (loadedEntry : LoadedEntry K T) (nowMillis : Int) (src : RandSrc)
    (i : ℕ) : Cache K T × ℕ :=
  let entry : CachedEntry T := {}
  let r := entry.set loadedEntry.Value loadedEntry.Err nowMillis c.timeouts true src i
  if (dataLookup c.data loadedEntry.ID).isSome && errIsGeneric loadedEntry.Err then
    ({ c with errorLoads := c.errorLoads + 1 }, r.2.2)
  else
    let c := { c with data := dataInsert c.data loadedEntry.ID r.2.1 }
    let c := c.setEntryWatchers loadedEntry.ID r.1 r.2.1 nowMillis
    ({ c with itemsCount := c.itemsCount + 1 }, r.2.2)

/-- One iteration of the `startTTLWatcher` loop body, given a key `id` the
TTL queue's popper has just yielded (the popper itself removes the fired
item from that queue, so the body never touches the TTL queue): if the
key is still in the index, delete it, drop its reload-watcher entry and
decrement the items-count gauge. -/
def Cache.ttlReaperFire [DecidableEq K] (c : Cache K T) (id : K) :
    Cache K T :=
  match dataLookup c.data id with
  | none => c
  | some _ =>
    { c with data := dataRemove c.data id,
             reloadWatcher := wDrop c.reloadWatcher id,
             itemsCount := c.itemsCount - 1 }

/-- One iteration of the `startReloadWatcher` loop body, given a key `id`
the reload queue's popper has just yielded (the popper itself removes the
fired item from that queue): skip when the key is gone, skip when mode is
AccessedOnly and the entry was not accessed; otherwise invoke the loader,
capture `accessed`, call `set(..., init=false)`, override the returned
ttl to `-1` when the captured `accessed` was false, re-arm the watchers
and bump the counters. -/
def Cache.reloadDriverFire [DecidableEq K] (c : Cache K T) (id : K)
    (nowMillis : Int) (loader : Loader K T) (src : RandSrc) (i : ℕ) :
    Cache K T × ℕ :=
  match dataLookup c.data id with
  | none => (c, i)
  | some entry =>
    if c.automaticReload = .accessedEntries && !entry.accessed then
      (c, i)
    else
      let lv := loader id
      let accessed := entry.accessed
      let r := entry.set lv.1 lv.2 nowMillis c.timeouts false src i
      let ttl := if !accessed then -1 else r.1
      let c := { c with data := dataInsert c.data id r.2.1 }
      let c := c.setEntryWatchers id ttl r.2.1 nowMillis
      let c := { c with automaticLoads := c.automaticLoads + 1,
                        errorLoads := c.errorLoads +
                          (if errIsGeneric lv.2 then 1 else 0) }
      (c, r.2.2)

end CacheModel

/-! ## Entry-level properties of `cachedEntry.set` -/

/-- C1: for every call to `cachedEntry.set` with `err` absent, for any
`firstLoad` flag and any prior entry state, the new value pointer is
stored (overwriting any prior value, including a prior not-found `nil`),
the returned ttl is `jitter(TTL, Randomizer)`, and afterwards `accessed`
is false and `nextReload = nowMillis + jitter(ReloadInterval,
Randomizer)` in milliseconds (the reload draw being the next one after
the TTL draw). -/
theorem set_success_spec {T : Type} (e : CachedEntry T) (v : Option T)
    (nowMillis : Int) (tm : Timeouts) (init : Bool) (src : RandSrc) (i : ℕ) :
    (e.set v none nowMillis tm init src i).1
        = (RandomizeDuration tm.TTL tm.Randomizer src i).1 ∧
    (e.set v none nowMillis tm init src i).2.1.value = v ∧
    (e.set v none nowMillis tm init src i).2.1.accessed = false ∧
    (e.set v none nowMillis tm init src i).2.1.nextReload
        = nowMillis + durMillis (RandomizeDuration tm.ReloadInterval
            tm.Randomizer src (RandomizeDuration tm.TTL tm.Randomizer src i).2).1 :=
  ⟨rfl, rfl, rfl, rfl⟩

/-- C2: for every error whose cause chain contains the NotFound sentinel,
`cachedEntry.set` clears any stored value (a subsequent `get` returns
absent) and returns `ttl = jitter(NotFoundTTL, Randomizer)`; the call is
the same function of the state for `firstLoad = true` and `false`. -/
theorem set_notfound_spec {T : Type} (e : CachedEntry T) (v : Option T)
    (er : GoError) (h : er.isNotFound = true) (nowMillis : Int)
    (tm : Timeouts) (init : Bool) (src : RandSrc) (i : ℕ) :
    (e.set v (some er) nowMillis tm init src i).2.1.value = none ∧
    ((e.set v (some er) nowMillis tm init src i).2.1.get).1 = none ∧
    (e.set v (some er) nowMillis tm init src i).1
        = (RandomizeDuration tm.NotFoundTTL tm.Randomizer src i).1 ∧
    e.set v (some er) nowMillis tm true src i
        = e.set v (some er) nowMillis tm false src i := by
  simp [CachedEntry.set, CachedEntry.get, h]

/-- C2 witness: evaluate at a wrapped NotFound over a prior stored value. -/
theorem set_notfound_spec_witness :
    (GoError.wrap "ctx" .notFound).isNotFound = true ∧
    (CachedEntry.set (T := String)
        { nextReload := 5, accessed := true, value := some "old" }
        (some "new") (some (.wrap "ctx" .notFound)) 1700000000
        { TTL := 8000000000, NotFoundTTL := 5000000000, ErrorTTL := 1000000000,
          ReloadInterval := 3000000000, Randomizer := 0, MemsizeUpdate := 0 }
        true (fun _ => (0, true)) 0).2.1.value = none :=
  ⟨rfl, (set_notfound_spec
    { nextReload := 5, accessed := true, value := some "old" }
    (some "new") (.wrap "ctx" .notFound) rfl 1700000000
    { TTL := 8000000000, NotFoundTTL := 5000000000, ErrorTTL := 1000000000,
      ReloadInterval := 3000000000, Randomizer := 0, MemsizeUpdate := 0 }
    true (fun _ => (0, true)) 0).1⟩

/-- C3: for every non-nil, non-NotFound error, `cachedEntry.set` leaves
the stored value pointer unchanged (serve-stale), updates only
`accessed` and `nextReload`, and returns `jitter(ErrorTTL, Randomizer)`
when `firstLoad` is true and the sentinel `-1` when it is false. -/
theorem set_generic_error_spec {T : Type} (e : CachedEntry T)
    (v : Option T) (er : GoError) (h : er.isNotFound = false)
    (nowMillis : Int) (tm : Timeouts) (init : Bool) (src : RandSrc) (i : ℕ) :
    (e.set v (some er) nowMillis tm init src i).2.1.value = e.value ∧
    (e.set v (some er) nowMillis tm init src i).2.1.accessed = false ∧
    (e.set v (some er) nowMillis tm init src i).2.1.nextReload
        = nowMillis + durMillis (RandomizeDuration tm.ReloadInterval
            tm.Randomizer src
            (if init then (RandomizeDuration tm.ErrorTTL tm.Randomizer src i).2
             else i)).1 ∧
    (e.set v (some er) nowMillis tm true src i).1
        = (RandomizeDuration tm.ErrorTTL tm.Randomizer src i).1 ∧
    (e.set v (some er) nowMillis tm false src i).1 = -1 := by
  cases init <;> simp [CachedEntry.set, h]

/-- C3 witness: evaluate at a concrete generic error over a prior value. -/
theorem set_generic_error_spec_witness :
    (GoError.generic "boom").isNotFound = false ∧
    (CachedEntry.set (T := String)
        { nextReload := 5, accessed := true, value := some "old" }
        none (some (.generic "boom")) 1700000000
        { TTL := 8000000000, NotFoundTTL := 5000000000, ErrorTTL := 1000000000,
          ReloadInterval := 3000000000, Randomizer := 0, MemsizeUpdate := 0 }
        false (fun _ => (0, true)) 0).2.1.value = some "old" :=
  ⟨rfl, (set_generic_error_spec
    { nextReload := 5, accessed := true, value := some "old" }
    none (.generic "boom") rfl 1700000000
    { TTL := 8000000000, NotFoundTTL := 5000000000, ErrorTTL := 1000000000,
      ReloadInterval := 3000000000, Randomizer := 0, MemsizeUpdate := 0 }
    false (fun _ => (0, true)) 0).1⟩

/-! ## Cache-level properties -/

/-- A concrete entry used to instantiate the cache-level theorems. -/
def entryFix : CachedEntry String :=
  { nextReload := 1700000000, accessed := true, value := some "v" }

/-- A concrete unaccessed entry. -/
def entryIdle : CachedEntry String :=
  { nextReload := 1700000000, accessed := false, value := some "v" }

/-- A concrete cache holding `entryFix` under key 1 and `entryIdle` under
key 2, in AccessedOnly automatic-reload mode. -/
def cacheFix : Cache Nat String :=
  { timeouts := { TTL := 8000000000, NotFoundTTL := 5000000000,
                  ErrorTTL := 1000000000, ReloadInterval := 3000000000,
                  Randomizer := 0, MemsizeUpdate := 0 },
    automaticReload := .accessedEntries,
    data := [(1, entryFix), (2, entryIdle)],
    ttlWatcher := [(1, 1700005000)], reloadWatcher := [(1, 1700000000)],
    itemsCount := 2 }

/-- A degenerate random source: every draw is `(0, true)`. -/
def srcFix : RandSrc := fun _ => (0, true)

/-- The degenerate source draws in `[0, 1)`. -/
theorem srcFix_ok : RandSrcOk srcFix := by
  intro i
  constructor <;> norm_num [srcFix]

/-- C5: for a key present in the index, `Invalidate` stores 0 into that
entry's `nextReload`, pushes the key onto the reload watcher with a zero
deadline exactly when automatic reload is enabled, and changes nothing
else (value and accessed flag of the entry, the other bindings, the TTL
watcher, the counters); for an absent key it is a complete no-op. -/
theorem invalidate_spec {K T : Type} [DecidableEq K] (c : Cache K T)
    (k : K) (now : Int) :
    (dataLookup c.data k = none → c.Invalidate k now = c) ∧
    (∀ entry, dataLookup c.data k = some entry →
      dataLookup (c.Invalidate k now).data k
          = some { entry with nextReload := 0 } ∧
      (∀ k', ¬ k' = k →
        dataLookup (c.Invalidate k now).data k' = dataLookup c.data k') ∧
      (c.Invalidate k now).ttlWatcher = c.ttlWatcher ∧
      (c.automaticReload = .disabled →
        (c.Invalidate k now).reloadWatcher = c.reloadWatcher) ∧
      (¬ c.automaticReload = .disabled →
        wLookup (c.Invalidate k now).reloadWatcher k = some now ∧
        (∀ k', ¬ k' = k →
          wLookup (c.Invalidate k now).reloadWatcher k'
            = wLookup c.reloadWatcher k')) ∧
      (c.Invalidate k now).timeouts = c.timeouts ∧
      (c.Invalidate k now).automaticReload = c.automaticReload ∧
      (c.Invalidate k now).itemsCount = c.itemsCount ∧
      (c.Invalidate k now).errorLoads = c.errorLoads ∧
      (c.Invalidate k now).lazyLoads = c.lazyLoads ∧
      (c.Invalidate k now).automaticLoads = c.automaticLoads ∧
      (c.Invalidate k now).readsCount = c.readsCount) := by
  constructor
  · intro h
    simp [Cache.Invalidate, h]
  · intro entry h
    have hinv : c.Invalidate k now
        = if c.automaticReload = .disabled then
            { c with data := dataInsert c.data k { entry with nextReload := 0 } }
          else
            { c with data := dataInsert c.data k { entry with nextReload := 0 },
                     reloadWatcher := wPush c.reloadWatcher k (now + durMillis 0) } := by
      unfold Cache.Invalidate
      rw [h]
    rw [hinv]
    by_cases hmode : c.automaticReload = .disabled
    · rw [if_pos hmode]
      exact ⟨alistLookup_insert_self _ _ _,
             fun k' hk' => alistLookup_insert_ne _ _ _ _ hk',
             rfl, fun _ => rfl, fun hne => absurd hmode hne,
             rfl, rfl, rfl, rfl, rfl, rfl, rfl⟩
    · rw [if_neg hmode]
      refine ⟨alistLookup_insert_self _ _ _,
             fun k' hk' => alistLookup_insert_ne _ _ _ _ hk',
             rfl, fun hdis => absurd hdis hmode, fun _ => ⟨?_, ?_⟩,
             rfl, rfl, rfl, rfl, rfl, rfl, rfl⟩
      · have h0 : now + durMillis 0 = now := by
          have : durMillis 0 = 0 := by decide
          omega
        rw [show wLookup (wPush c.reloadWatcher k (now + durMillis 0)) k
              = some (now + durMillis 0) from alistLookup_insert_self _ _ _, h0]
      · exact fun k' hk' => alistLookup_insert_ne _ _ _ _ hk'

/-- C5 witness: invalidate the present key 1 of the concrete cache. -/
theorem invalidate_spec_witness :
    dataLookup cacheFix.data 1 = some entryFix ∧
    dataLookup (cacheFix.Invalidate 1 1700000500).data 1
      = some { entryFix with nextReload := 0 } := by
  have hfound : dataLookup cacheFix.data 1 = some entryFix := rfl
  exact ⟨hfound, ((invalidate_spec cacheFix 1 1700000500).2 entryFix hfound).1⟩

/-- C4: in the background reload driver, for a fired key whose entry
exists: if the mode is AccessedOnly and the entry is unaccessed, the
iteration does nothing at all (no loader call, no state change, no
randomness consumed); and in any enabled mode, when the accessed flag
captured before `set` is false, the TTL watcher is left untouched (the
returned ttl is overridden to the `-1` sentinel, so the eviction deadline
is not extended by the unobserved refresh). -/
theorem reload_driver_unaccessed_spec {K T : Type} [DecidableEq K]
    (c : Cache K T) (k : K) (entry : CachedEntry T) (now : Int)
    (loader : Loader K T) (src : RandSrc) (i : ℕ)
    (hfound : dataLookup c.data k = some entry)
    (hacc : entry.accessed = false) :
    (c.automaticReload = .accessedEntries →
      c.reloadDriverFire k now loader src i = (c, i)) ∧
    (¬ c.automaticReload = .disabled →
      (c.reloadDriverFire k now loader src i).1.ttlWatcher = c.ttlWatcher) := by
  constructor
  · intro hmode
    simp [Cache.reloadDriverFire, hfound, hmode, hacc]
  · intro hmode
    cases hm : c.automaticReload with
    | disabled => exact absurd hm hmode
    | accessedEntries => simp [Cache.reloadDriverFire, hfound, hm, hacc]
    | allEntries =>
      simp [Cache.reloadDriverFire, hfound, hm, hacc, Cache.setEntryWatchers]

/-- C4 witness: the AccessedOnly-mode concrete cache does not reload the
unaccessed key 2, and its TTL watcher is untouched. -/
theorem reload_driver_unaccessed_spec_witness :
    dataLookup cacheFix.data 2 = some entryIdle ∧
    cacheFix.reloadDriverFire 2 1700000100 (fun _ => (some "w", none)) srcFix 0
      = (cacheFix, 0) ∧
    (cacheFix.reloadDriverFire 2 1700000100 (fun _ => (some "w", none))
        srcFix 0).1.ttlWatcher = cacheFix.ttlWatcher := by
  have hfound : dataLookup cacheFix.data 2 = some entryIdle := rfl
  have hacc : entryIdle.accessed = false := rfl
  have hspec := reload_driver_unaccessed_spec cacheFix 2 entryIdle 1700000100
    (fun _ => (some "w", none)) srcFix 0 hfound hacc
  exact ⟨hfound, hspec.1 rfl, hspec.2 (by decide)⟩

/-- A jittered nonnegative duration is nonnegative: the additive term is
bounded in magnitude by `d·u·r ≤ d` when the float draw is in `[0,1)` and
the randomizer in `[0,1]`. -/
theorem RandomizeDuration_nonneg (d : Int) (r : ℚ) (src : RandSrc) (i : ℕ)
    (hd : 0 ≤ d) (hr0 : 0 ≤ r) (hr1 : r ≤ 1) (hsrc : RandSrcOk src) :
    0 ≤ (RandomizeDuration d r src i).1 := by
  unfold RandomizeDuration
  by_cases hz : r = 0
  · simp [hz, hd]
  · simp only [hz, if_false]
    obtain ⟨hu0, hu1⟩ := hsrc i
    have hdq : (0 : ℚ) ≤ (d : ℚ) := by exact_mod_cast hd
    have hq0 : (0 : ℚ) ≤ (d : ℚ) * (src i).1 * r :=
      mul_nonneg (mul_nonneg hdq hu0) hr0
    have hq1 : (d : ℚ) * (src i).1 * r ≤ (d : ℚ) := by
      nlinarith [mul_nonneg hdq hu0, mul_nonneg hdq hr0]
    have htr : truncQ ((d : ℚ) * (src i).1 * r) = ⌊(d : ℚ) * (src i).1 * r⌋ :=
      if_pos hq0
    have h0 : 0 ≤ ⌊(d : ℚ) * (src i).1 * r⌋ := Int.floor_nonneg.mpr hq0
    have h1 : ⌊(d : ℚ) * (src i).1 * r⌋ ≤ d := by
      have := Int.floor_le_floor hq1
      simpa using this
    rw [htr]
    rcases (src i).2 <;> simp <;> omega

/-- The ttl returned by a first-load `set` is always nonnegative when the
three TTL constants are nonnegative. -/
theorem set_init_ttl_nonneg {T : Type} (e : CachedEntry T) (v : Option T)
    (err : Option GoError) (nowMillis : Int) (tm : Timeouts) (src : RandSrc)
    (i : ℕ) (hsrc : RandSrcOk src) (hTTL : 0 ≤ tm.TTL)
    (hNF : 0 ≤ tm.NotFoundTTL) (hE : 0 ≤ tm.ErrorTTL)
    (hr0 : 0 ≤ tm.Randomizer) (hr1 : tm.Randomizer ≤ 1) :
    0 ≤ (e.set v err nowMillis tm true src i).1 := by
  match err with
  | none =>
    simpa [CachedEntry.set] using
      RandomizeDuration_nonneg tm.TTL tm.Randomizer src i hTTL hr0 hr1 hsrc
  | some er =>
    by_cases hnf : er.isNotFound = true
    · simpa [CachedEntry.set, hnf] using
        RandomizeDuration_nonneg tm.NotFoundTTL tm.Randomizer src i hNF hr0 hr1 hsrc
    · simpa [CachedEntry.set, hnf] using
        RandomizeDuration_nonneg tm.ErrorTTL tm.Randomizer src i hE hr0 hr1 hsrc

/-- Converting a whole number of milliseconds to a duration and back is
the identity. -/
theorem durMillis_mul (x : Int) : durMillis (x * 1000000) = x :=
  Int.mul_tdiv_cancel x (by norm_num)

/-- C8: the preload path.  When the key already exists and the incoming
item carries a non-NotFound error, the freshly built entry is discarded:
index, watchers and items-count are unchanged and only the error-loads
counter is bumped.  In every other case the new entry (as built by
`set(..., init=true)`) is installed under the key, items-count is bumped,
the TTL watcher is armed with the returned ttl and — exactly when
automatic reload is enabled — the reload watcher is armed at the entry's
`nextReload`. -/
theorem addLoadedEntry_spec {K T : Type} [DecidableEq K] (c : Cache K T)
    (le : LoadedEntry K T) (now : Int) (src : RandSrc) (i : ℕ)
    (hsrc : RandSrcOk src) (hTTL : 0 ≤ c.timeouts.TTL)
    (hNF : 0 ≤ c.timeouts.NotFoundTTL) (hE : 0 ≤ c.timeouts.ErrorTTL)
    (hr0 : 0 ≤ c.timeouts.Randomizer) (hr1 : c.timeouts.Randomizer ≤ 1) :
    ((dataLookup c.data le.ID).isSome = true → errIsGeneric le.Err = true →
      (c.addLoadedEntry le now src i).1.data = c.data ∧
      (c.addLoadedEntry le now src i).1.ttlWatcher = c.ttlWatcher ∧
      (c.addLoadedEntry le now src i).1.reloadWatcher = c.reloadWatcher ∧
      (c.addLoadedEntry le now src i).1.errorLoads = c.errorLoads + 1 ∧
      (c.addLoadedEntry le now src i).1.itemsCount = c.itemsCount) ∧
    (¬ ((dataLookup c.data le.ID).isSome = true ∧ errIsGeneric le.Err = true) →
      dataLookup (c.addLoadedEntry le now src i).1.data le.ID
          = some (CachedEntry.set {} le.Value le.Err now c.timeouts true src i).2.1 ∧
      (c.addLoadedEntry le now src i).1.itemsCount = c.itemsCount + 1 ∧
      wLookup (c.addLoadedEntry le now src i).1.ttlWatcher le.ID
          = some (now + durMillis
              (CachedEntry.set {} le.Value le.Err now c.timeouts true src i).1) ∧
      (¬ c.automaticReload = .disabled →
        wLookup (c.addLoadedEntry le now src i).1.reloadWatcher le.ID
          = some (CachedEntry.set {} le.Value le.Err now c.timeouts true src i).2.1.nextReload) ∧
      (c.automaticReload = .disabled →
        (c.addLoadedEntry le now src i).1.reloadWatcher = c.reloadWatcher)) := by
  have httl : 0 ≤ (CachedEntry.set ({} : CachedEntry T) le.Value le.Err now
      c.timeouts true src i).1 :=
    set_init_ttl_nonneg {} le.Value le.Err now c.timeouts src i hsrc hTTL hNF hE hr0 hr1
  constructor
  · intro hex hgen
    simp [Cache.addLoadedEntry, hex, hgen]
  · intro hng
    have hcond : ((dataLookup c.data le.ID).isSome && errIsGeneric le.Err) = false := by
      by_cases hb : (dataLookup c.data le.ID).isSome = true
      · by_cases hg : errIsGeneric le.Err = true
        · exact absurd ⟨hb, hg⟩ hng
        · rw [Bool.not_eq_true] at hg
          simp [hg]
      · rw [Bool.not_eq_true] at hb
        simp [hb]
    unfold Cache.addLoadedEntry
    rw [hcond]
    simp only [Bool.false_eq_true, if_false]
    unfold Cache.setEntryWatchers
    rw [if_pos httl]
    by_cases hmode : c.automaticReload = .disabled
    · rw [if_pos hmode]
      exact ⟨alistLookup_insert_self _ _ _, rfl,
             alistLookup_insert_self _ _ _,
             fun hne => absurd hmode hne, fun _ => rfl⟩
    · rw [if_neg hmode]
      refine ⟨alistLookup_insert_self _ _ _, rfl, alistLookup_insert_self _ _ _,
              fun _ => ?_, fun hdis => absurd hdis hmode⟩
      rw [show wLookup (wPush c.reloadWatcher le.ID
            (now + durMillis (((CachedEntry.set {} le.Value le.Err now
              c.timeouts true src i).2.1.nextReload - now) * 1000000))) le.ID
          = some (now + durMillis (((CachedEntry.set {} le.Value le.Err now
              c.timeouts true src i).2.1.nextReload - now) * 1000000))
          from alistLookup_insert_self _ _ _, durMillis_mul]
      congr 1
      omega

/-- C8 witness: preloading a generic-error item for the present key 1 of
the concrete cache discards the item and bumps only the error counter. -/
theorem addLoadedEntry_spec_witness :
    (dataLookup cacheFix.data 1).isSome = true ∧
    errIsGeneric (some (.generic "boom")) = true ∧
    (cacheFix.addLoadedEntry ⟨1, none, some (.generic "boom")⟩
        1700000100 srcFix 0).1.data = cacheFix.data ∧
    (cacheFix.addLoadedEntry ⟨1, none, some (.generic "boom")⟩
        1700000100 srcFix 0).1.errorLoads = cacheFix.errorLoads + 1 := by
  have hspec := (addLoadedEntry_spec cacheFix ⟨1, none, some (.generic "boom")⟩
    1700000100 srcFix 0 srcFix_ok (by decide) (by decide) (by decide)
    (by norm_num [cacheFix]) (by norm_num [cacheFix])).1 rfl rfl
  exact ⟨rfl, rfl, hspec.1, hspec.2.2.2.1⟩

/-- Jittering the zero duration yields zero regardless of the draws. -/
theorem RandomizeDuration_zero_fst (r : ℚ) (src : RandSrc) (i : ℕ) :
    (RandomizeDuration 0 r src i).1 = 0 := by
  unfold RandomizeDuration truncQ
  by_cases hz : r = 0
  · simp [hz]
  · simp [hz]

/-- After a TTL-reaper iteration for a key, that key is gone from the
index (whether or not it was there). -/
theorem ttlReaperFire_lookup_none {K T : Type} [DecidableEq K]
    (c : Cache K T) (k : K) :
    dataLookup (c.ttlReaperFire k).data k = none := by
  unfold Cache.ttlReaperFire
  cases h : dataLookup c.data k with
  | none => simp [h]
  | some e => simp [h, dataRemove, dataLookup, alistLookup_remove_self]

/-- A `Get` on a key absent from the index invokes the loader and hands
its fresh value to the caller. -/
theorem Get_miss_success {K T : Type} [DecidableEq K] (c : Cache K T)
    (k : K) (now : Int) (loader : Loader K T) (src : RandSrc) (i : ℕ)
    (v : T) (habs : dataLookup c.data k = none)
    (hload : loader k = (some v, none)) :
    (c.Get k now loader src i).1 = some v := by
  simp [Cache.Get, habs, hload, CachedEntry.set, CachedEntry.get]

/-- C7: with `NotFoundTTL = 0`, negative entries are not cached.  A `Get`
whose loader call returns NotFound (the key being absent or its entry
stale) returns absent, arms the TTL watcher with a deadline that is
already due at the very instant of the `Get`, so the TTL reaper's next
iteration on that key removes it from the index, after which a further
`Get` is served by a fresh loader call, not by a stored not-found
record. -/
theorem notfound_ttl_zero_not_cached {K T : Type} [DecidableEq K]
    (c : Cache K T) (k : K) (now : Int) (loader : Loader K T)
    (src : RandSrc) (i : ℕ) (hnf : c.timeouts.NotFoundTTL = 0)
    (hload : errIsNotFound (loader k).2 = true)
    (hstale : ∀ e, dataLookup c.data k = some e → e.nextReload ≤ now) :
    (c.Get k now loader src i).1 = none ∧
    wLookup (c.Get k now loader src i).2.1.ttlWatcher k = some now ∧
    dataLookup (((c.Get k now loader src i).2.1).ttlReaperFire k).data k
      = none ∧
    (∀ (v : T) (now' : Int) (loader' : Loader K T) (src' : RandSrc) (i' : ℕ),
      loader' k = (some v, none) →
      ((((c.Get k now loader src i).2.1).ttlReaperFire k).Get k now' loader'
          src' i').1 = some v) := by
  cases hl2 : (loader k).2 with
  | none =>
    rw [hl2] at hload
    exact absurd hload (by simp [errIsNotFound])
  | some er =>
    have her : er.isNotFound = true := by
      rw [hl2] at hload
      simpa [errIsNotFound] using hload
    have hset0 : ∀ (e : CachedEntry T) (init : Bool),
        (e.set (loader k).1 (loader k).2 now c.timeouts init src i).1 = 0 := by
      intro e init
      rw [hl2]
      simp [CachedEntry.set, her, hnf, RandomizeDuration_zero_fst]
    have hsetval : ∀ (e : CachedEntry T) (init : Bool),
        (e.set (loader k).1 (loader k).2 now c.timeouts init src i).2.1.value
          = none := by
      intro e init
      rw [hl2]
      simp [CachedEntry.set, her]
    have hd0 : durMillis 0 = 0 := by decide
    refine ⟨?_, ?_, ttlReaperFire_lookup_none _ _,
            fun v now' loader' src' i' hl =>
              Get_miss_success _ _ _ _ _ _ v (ttlReaperFire_lookup_none _ _) hl⟩
    · cases hfound : dataLookup c.data k with
      | none =>
        simp [Cache.Get, hfound, CachedEntry.get, hsetval]
      | some entry =>
        have hlt : ¬ now < entry.nextReload := not_lt.mpr (hstale entry hfound)
        simp [Cache.Get, hfound, hlt, CachedEntry.get, hsetval]
    · cases hfound : dataLookup c.data k with
      | none =>
        by_cases hmode : c.automaticReload = .disabled <;>
          simp [Cache.Get, hfound, Cache.setEntryWatchers, hset0, hmode, hd0,
                wLookup, wPush, alistLookup_insert_self]
      | some entry =>
        have hlt : ¬ now < entry.nextReload := not_lt.mpr (hstale entry hfound)
        by_cases hmode : c.automaticReload = .disabled <;>
          simp [Cache.Get, hfound, hlt, Cache.setEntryWatchers, hset0, hmode,
                hd0, wLookup, wPush, alistLookup_insert_self]

/-- A concrete cache with `NotFoundTTL = 0` and an empty index. -/
def cacheNF : Cache Nat String :=
  { timeouts := { TTL := 8000000000, NotFoundTTL := 0,
                  ErrorTTL := 1000000000, ReloadInterval := 3000000000,
                  Randomizer := 0, MemsizeUpdate := 0 },
    automaticReload := .disabled,
    data := [], ttlWatcher := [], reloadWatcher := [] }

/-- C7 witness: a NotFound load on the concrete cache returns absent and
arms an immediately-due TTL deadline; after the reaper fires, a fresh
load is served. -/
theorem notfound_ttl_zero_not_cached_witness :
    cacheNF.timeouts.NotFoundTTL = 0 ∧
    (cacheNF.Get 7 1700000000 (fun _ => (none, some .notFound)) srcFix 0).1
      = none ∧
    wLookup (cacheNF.Get 7 1700000000 (fun _ => (none, some .notFound))
        srcFix 0).2.1.ttlWatcher 7 = some 1700000000 := by
  have hspec := notfound_ttl_zero_not_cached cacheNF 7 1700000000
    (fun _ => (none, some .notFound)) srcFix 0 rfl rfl
    (fun e he => by exact Option.noConfusion he)
  exact ⟨rfl, hspec.1, hspec.2.1⟩

/-- The set of keys bound in the index. -/
def keyFinset {K T : Type} [DecidableEq K] (l : List (K × CachedEntry T)) :
    Finset K :=
  (l.map Prod.fst).toFinset

theorem keyFinset_insert {K T : Type} [DecidableEq K]
    (l : List (K × CachedEntry T)) (k : K) (v : CachedEntry T) :
    keyFinset (dataInsert l k v) = insert k (keyFinset l) := by
  ext x
  by_cases hx : x = k
  · subst hx
    simp [keyFinset, dataInsert, alistInsert]
  · simp only [keyFinset, dataInsert, alistInsert, List.map_cons,
      List.toFinset_cons, Finset.mem_insert, hx, false_or, List.mem_toFinset,
      List.mem_map]
    constructor
    · rintro ⟨p, hp, hpx⟩
      exact ⟨p, (List.mem_filter.mp hp).1, hpx⟩
    · rintro ⟨p, hp, hpx⟩
      refine ⟨p, List.mem_filter.mpr ⟨hp, ?_⟩, hpx⟩
      rw [hpx]
      simpa using hx

theorem mem_keyFinset_of_isSome {K T : Type} [DecidableEq K]
    (l : List (K × CachedEntry T)) (k : K)
    (h : (dataLookup l k).isSome = true) : k ∈ keyFinset l := by
  unfold dataLookup alistLookup at h
  cases hf : l.find? (fun p => p.1 = k) with
  | none => rw [hf] at h; simp at h
  | some p =>
    have hmem := List.mem_of_find?_eq_some hf
    have hpk : p.1 = k := by simpa using List.find?_some hf
    exact List.mem_toFinset.mpr (List.mem_map.mpr ⟨p, hmem, hpk⟩)

/-- C10 (implicit): the preload path bumps the items-count gauge on every
install, including when the installed entry replaces one already present
under the same key; starting from a state in which the gauge equals the
number of keys in the index, a successful (or NotFound) preload of an
existing key leaves the gauge strictly above the key count, so
`addLoadedEntry` does not maintain the gauge/index-size invariant. -/
theorem addLoadedEntry_items_count_drift {K T : Type} [DecidableEq K]
    (c : Cache K T) (le : LoadedEntry K T) (now : Int) (src : RandSrc)
    (i : ℕ) (hfound : (dataLookup c.data le.ID).isSome = true)
    (hng : errIsGeneric le.Err = false)
    (hinv : c.itemsCount = ((keyFinset c.data).card : Int)) :
    (c.addLoadedEntry le now src i).1.itemsCount
      = ((keyFinset (c.addLoadedEntry le now src i).1.data).card : Int) + 1 := by
  have hcond : ((dataLookup c.data le.ID).isSome && errIsGeneric le.Err) = false := by
    simp [hfound, hng]
  have hmem : le.ID ∈ keyFinset c.data := mem_keyFinset_of_isSome _ _ hfound
  have hdata : (c.addLoadedEntry le now src i).1.data
      = dataInsert c.data le.ID
          (CachedEntry.set {} le.Value le.Err now c.timeouts true src i).2.1 := by
    unfold Cache.addLoadedEntry
    rw [hcond]
    simp only [Bool.false_eq_true, if_false]
    unfold Cache.setEntryWatchers
    by_cases httl : (0:Int) ≤ (CachedEntry.set ({} : CachedEntry T) le.Value
        le.Err now c.timeouts true src i).1
    · rw [if_pos httl]
      by_cases hmode : c.automaticReload = .disabled
      · rw [if_pos hmode]
      · rw [if_neg hmode]
    · rw [if_neg httl]
      by_cases hmode : c.automaticReload = .disabled
      · rw [if_pos hmode]
      · rw [if_neg hmode]
  have hcount : (c.addLoadedEntry le now src i).1.itemsCount
      = c.itemsCount + 1 := by
    unfold Cache.addLoadedEntry
    rw [hcond]
    simp only [Bool.false_eq_true, if_false]
    unfold Cache.setEntryWatchers
    by_cases httl : (0:Int) ≤ (CachedEntry.set ({} : CachedEntry T) le.Value
        le.Err now c.timeouts true src i).1
    · rw [if_pos httl]
      by_cases hmode : c.automaticReload = .disabled
      · rw [if_pos hmode]
      · rw [if_neg hmode]
    · rw [if_neg httl]
      by_cases hmode : c.automaticReload = .disabled
      · rw [if_pos hmode]
      · rw [if_neg hmode]
  rw [hcount, hdata, keyFinset_insert, Finset.insert_eq_self.mpr hmem, hinv]

/-- C10 witness: a successful preload item for the present key 1 of the
concrete cache (whose gauge 2 equals its key count 2) leaves the gauge at
3 while the index still has 2 keys. -/
theorem addLoadedEntry_items_count_drift_witness :
    (dataLookup cacheFix.data 1).isSome = true ∧
    cacheFix.itemsCount = ((keyFinset cacheFix.data).card : Int) ∧
    (cacheFix.addLoadedEntry ⟨1, some "new", none⟩ 1700000100 srcFix 0).1.itemsCount
      = ((keyFinset (cacheFix.addLoadedEntry ⟨1, some "new", none⟩
          1700000100 srcFix 0).1.data).card : Int) + 1 := by
  have h1 : (dataLookup cacheFix.data 1).isSome = true := rfl
  have h2 : cacheFix.itemsCount = ((keyFinset cacheFix.data).card : Int) := by
    decide
  exact ⟨h1, h2, addLoadedEntry_items_count_drift cacheFix ⟨1, some "new", none⟩
    1700000100 srcFix 0 h1 rfl h2⟩

/-! ## Per-key loader serialization

Two small interleaving models of `Get`'s code paths.  The first captures
the miss path: a goroutine that observes a miss constructs its own fresh
entry, locks that private entry (never contending with anyone) and
publishes it to the index before invoking the loader.  The second
captures every load of an already-shared entry (the stale path of `Get`
and the reload driver body), which first acquires the entry's shared
mutex. -/

/-- Program counter of a goroutine in the miss path of `Get`: `start` —
about to read the index; `missing` — observed a miss, about to create,
lock and publish its own entry; `loading` — inside the `loadOneFunc`
call; `done` — finished. -/
inductive MissPc where
  | start : MissPc
  | missing : MissPc
  | loading : MissPc
  | done : MissPc
deriving DecidableEq, Repr

/-- Two goroutines racing through `Get` on the same key, absent at the
outset.  `published` says whether the index holds an entry for the key.
A goroutine that observes a hit is modelled as returning without loading
— an under-approximation of the hit path that can only remove loader
invocations, never add any. -/
structure MissState where
  published : Bool
  pc1 : MissPc
  pc2 : MissPc
deriving DecidableEq, Repr

/-- Interleaved small-step semantics of the two goroutines.  Locking the
goroutine's own freshly created entry always succeeds at once (the two
goroutines hold different mutexes), so publishing and entering the
loader is a single never-blocking step. -/
inductive MissStep : MissState → MissState → Prop where
  | check1Miss (s : MissState) : s.pc1 = .start → s.published = false →
      MissStep s { s with pc1 := .missing }
  | check1Hit (s : MissState) : s.pc1 = .start → s.published = true →
      MissStep s { s with pc1 := .done }
  | publish1 (s : MissState) : s.pc1 = .missing →
      MissStep s { s with published := true, pc1 := .loading }
  | load1 (s : MissState) : s.pc1 = .loading →
      MissStep s { s with pc1 := .done }
  | check2Miss (s : MissState) : s.pc2 = .start → s.published = false →
      MissStep s { s with pc2 := .missing }
  | check2Hit (s : MissState) : s.pc2 = .start → s.published = true →
      MissStep s { s with pc2 := .done }
  | publish2 (s : MissState) : s.pc2 = .missing →
      MissStep s { s with published := true, pc2 := .loading }
  | load2 (s : MissState) : s.pc2 = .loading →
      MissStep s { s with pc2 := .done }

/-- Both goroutines start with the key not yet cached. -/
def missInit : MissState := { published := false, pc1 := .start, pc2 := .start }

/-- States reachable by interleaving the two goroutines. -/
def MissReachable (s : MissState) : Prop :=
  Relation.ReflTransGen MissStep missInit s

/-- The claim "for every key and every instant, at most one loader
invocation for the key is in flight", read over the miss-path
interleaving model: no reachable state has both goroutines inside the
loader. -/
def MissMutex : Prop :=
  ∀ s, MissReachable s → ¬ (s.pc1 = .loading ∧ s.pc2 = .loading)

/-- C9 counterexample: the serialization claim fails on the miss path.
Interleaving `check1Miss, check2Miss, publish1, publish2` reaches a
state in which both goroutines are inside the loader for the same key at
the same instant — each locked only its own private entry, so the entry
mutex never arbitrated between them. -/
theorem loader_single_flight_counterexample : ¬ MissMutex := by
  intro h
  have t0 : MissReachable missInit := Relation.ReflTransGen.refl
  have t1 : MissReachable { published := false, pc1 := .missing, pc2 := .start } :=
    Relation.ReflTransGen.tail t0 (MissStep.check1Miss missInit rfl rfl)
  have t2 : MissReachable { published := false, pc1 := .missing, pc2 := .missing } :=
    Relation.ReflTransGen.tail t1
      (MissStep.check2Miss { published := false, pc1 := .missing, pc2 := .start }
        rfl rfl)
  have t3 : MissReachable { published := true, pc1 := .loading, pc2 := .missing } :=
    Relation.ReflTransGen.tail t2
      (MissStep.publish1 { published := false, pc1 := .missing, pc2 := .missing }
        rfl)
  have t4 : MissReachable { published := true, pc1 := .loading, pc2 := .loading } :=
    Relation.ReflTransGen.tail t3
      (MissStep.publish2 { published := true, pc1 := .loading, pc2 := .missing }
        rfl)
  exact h _ t4 ⟨rfl, rfl⟩

/-- Program counter of a thread loading an already-shared entry: `idle`
— before `entry.mu.Lock()`; `waiting` — blocked on the lock; `loading` —
holding the lock, inside the loader call and the subsequent `set`;
`done` — after `entry.mu.Unlock()`. -/
inductive LockPc where
  | idle : LockPc
  | waiting : LockPc
  | loading : LockPc
  | done : LockPc
deriving DecidableEq, Repr

/-- Any number of threads (identified by `Tid`) sharing one entry's
mutex: the current owner, if any, and each thread's program counter. -/
structure LockState (Tid : Type) where
  owner : Option Tid
  pc : Tid → LockPc

/-- Interleaving semantics of the shared-mutex protocol: a thread enters
the loader only by acquiring the free mutex, and frees it on release. -/
inductive LockStep {Tid : Type} [DecidableEq Tid] :
    LockState Tid → LockState Tid → Prop where
  | request (s : LockState Tid) (t : Tid) : s.pc t = .idle →
      LockStep s { s with pc := Function.update s.pc t .waiting }
  | acquire (s : LockState Tid) (t : Tid) : s.pc t = .waiting →
      s.owner = none →
      LockStep s { owner := some t, pc := Function.update s.pc t .loading }
  | release (s : LockState Tid) (t : Tid) : s.pc t = .loading →
      LockStep s { owner := none, pc := Function.update s.pc t .done }

/-- All threads before their lock call, mutex free. -/
def lockInit (Tid : Type) : LockState Tid :=
  { owner := none, pc := fun _ => .idle }

/-- States reachable by interleaving the threads. -/
def LockReachable {Tid : Type} [DecidableEq Tid] (s : LockState Tid) : Prop :=
  Relation.ReflTransGen LockStep (lockInit Tid) s

/-- Invariant: a thread inside the loader owns the entry mutex. -/
theorem lock_loading_inv {Tid : Type} [DecidableEq Tid] (s : LockState Tid)
    (h : LockReachable s) :
    ∀ t, s.pc t = .loading → s.owner = some t := by
  induction h with
  | refl =>
    intro t ht
    exact absurd ht (by simp [lockInit])
  | tail hab hbc ih =>
    intro t ht
    cases hbc with
    | request t' hidle =>
      dsimp only at ht ⊢
      by_cases hts : t = t'
      · subst hts
        rw [Function.update_same] at ht
        cases ht
      · rw [Function.update_noteq hts] at ht
        exact ih t ht
    | acquire t' hw ho =>
      dsimp only at ht ⊢
      by_cases hts : t = t'
      · subst hts
        rfl
      · rw [Function.update_noteq hts] at ht
        rw [ih t ht] at ho
        cases ho
    | release t' hl =>
      dsimp only at ht ⊢
      by_cases hts : t = t'
      · subst hts
        rw [Function.update_same] at ht
        cases ht
      · rw [Function.update_noteq hts] at ht
        have h1 := ih t ht
        have h2 := ih t' hl
        rw [h1] at h2
        cases h2
        exact absurd rfl hts

/-- C9 amended: loader invocations on an already-shared entry (the stale
path of `Get` and the background reload driver) are serialized by the
entry's mutex — in every reachable state at most one thread is inside
the loader.  (The guarantee does not extend to first loads: two `Get`s
that miss the same absent key concurrently each lock a private entry and
may both invoke the loader, as the counterexample model shows.) -/
theorem entry_lock_single_flight {Tid : Type} [DecidableEq Tid]
    (s : LockState Tid) (h : LockReachable s) (t₁ t₂ : Tid)
    (h₁ : s.pc t₁ = .loading) (h₂ : s.pc t₂ = .loading) : t₁ = t₂ := by
  have o₁ := lock_loading_inv s h t₁ h₁
  have o₂ := lock_loading_inv s h t₂ h₂
  rw [o₁] at o₂
  exact Option.some.inj o₂

/-- The state after thread `false` of two requests the lock. -/
def lockS1 : LockState Bool :=
  { owner := none, pc := Function.update (fun _ => .idle) false .waiting }

/-- The state after thread `false` acquires the lock and starts loading. -/
def lockS2 : LockState Bool :=
  { owner := some false,
    pc := Function.update (Function.update (fun _ => .idle) false .waiting)
            false .loading }

/-- C9 amended witness: with two threads, the reachable state in which
thread `false` is loading satisfies the serialization theorem. -/
theorem entry_lock_single_flight_witness :
    LockReachable lockS2 ∧ lockS2.pc false = .loading ∧ false = false := by
  have t1 : LockReachable lockS1 :=
    Relation.ReflTransGen.tail Relation.ReflTransGen.refl
      (LockStep.request (lockInit Bool) false rfl)
  have t2 : LockReachable lockS2 :=
    Relation.ReflTransGen.tail t1
      (LockStep.acquire lockS1 false (by simp [lockS1]) rfl)
  have hpc : lockS2.pc false = .loading := by simp [lockS2]
  exact ⟨t2, hpc, entry_lock_single_flight lockS2 t2 false false hpc hpc⟩

/-! ## Construction-time validation -/

/-- A timeouts record with `ReloadInterval = 0` (not strictly positive). -/
def tmZeroReload : Timeouts :=
  { TTL := 5000000000, NotFoundTTL := 0, ErrorTTL := 0,
    ReloadInterval := 0, Randomizer := 0, MemsizeUpdate := 0 }

/-- A timeouts record with `TTL = -1` (not strictly positive). -/
def tmNegTTL : Timeouts :=
  { TTL := -1, NotFoundTTL := 0, ErrorTTL := 0,
    ReloadInterval := -2, Randomizer := 0, MemsizeUpdate := 0 }

/-- C6 counterexample: `Timeouts.check` accepts a record whose
`ReloadInterval` is not strictly positive, and a record whose `TTL` is
negative (with `ReloadInterval ≤ TTL`), so construction does not abort in
either case, contrary to the claim. -/
theorem check_positivity_counterexample :
    tmZeroReload.ReloadInterval ≤ 0 ∧ tmZeroReload.check = none ∧
    tmNegTTL.TTL < 0 ∧ tmNegTTL.check = none := by
  refine ⟨by decide, rfl, by decide, rfl⟩

/-- C6 amended: construction validation succeeds exactly when the context,
name and single-key loader are supplied, `TTL ≠ 0`, `ReloadInterval ≤
TTL` and `Randomizer ∈ [0, 1]`; it does not require `TTL` or
`ReloadInterval` to be strictly positive. -/
theorem check_valid_iff (p : ParamsV) :
    p.check = none ↔
      (p.contextSet = true ∧ p.name ≠ "" ∧ p.loadOneSet = true ∧
       p.timeouts.TTL ≠ 0 ∧
       p.timeouts.ReloadInterval ≤ p.timeouts.TTL ∧
       0 ≤ p.timeouts.Randomizer ∧ p.timeouts.Randomizer ≤ 1) := by
  unfold ParamsV.check Timeouts.check
  split_ifs with h1 h2 h3 h4 h5 h6 h7 <;> simp_all

end LazyCache
